import Mathlib

/-!
Verification of the astore Python client SDK (`pkg/client-python/astore_client`).

The Python source is shallowly embedded: Python `str` values are modelled as
`List Char` (Python strings are sequences of code points, so list operations
such as slicing and `startswith` translate directly), Python `int` as `Int`
(or `Nat` where the source guarantees non-negativity, e.g. HTTP status codes
and byte counts), JSON values as the inductive `JValue`, and code that can
raise as `Option`/`Except`.  `datetime.now()` is modelled by passing the
current time explicitly as an argument.  Values coming out of decoded JSON are
restricted to the types the dataclass fields declare; a server value of the
wrong shape is modelled as a `TypeError`.
-/

namespace AStore

/-- Python `str`, modelled as its sequence of code points. -/
abbrev PyStr := List Char

/-- Convert a Lean string literal to the `PyStr` model. -/
def str (s : String) : PyStr := s.toList

/-- Python `str(n)` for a natural number (decimal digits). -/
def pyStrOfNat (n : Nat) : PyStr := (toString n).toList

/-- Python `s.lower()` restricted to ASCII (all strings handled by this SDK
are ASCII header names and ASCII format tokens). -/
def pyLower (s : PyStr) : PyStr := s.map Char.toLower

/-- Python `s.replace(old, new)`; the source only calls it with the non-empty
pattern `"Z"` (an empty pattern, which Python treats specially, is returned
unchanged here). -/
def pyReplace (s old new : PyStr) : PyStr :=
  match s with
  | [] => []
  | c :: rest =>
    if old ≠ [] ∧ old.isPrefixOf (c :: rest) then
      new ++ pyReplace (List.drop (old.length - 1) rest) old new
    else c :: pyReplace rest old new
termination_by s.length
decreasing_by
  all_goals simp [List.length_drop]
  all_goals omega

/-- Python `s.rstrip("/")`: remove all trailing `/` characters. -/
def pyRstripSlash (s : PyStr) : PyStr :=
  (s.reverse.dropWhile (fun c => c = '/')).reverse

/-- Python `s.strip('"')`: remove all leading and trailing `"` characters. -/
def pyStripQuotes (s : PyStr) : PyStr :=
  ((s.dropWhile (fun c => c = '"')).reverse.dropWhile (fun c => c = '"')).reverse

/-- Decimal value of an ASCII digit. -/
def digitVal (c : Char) : Nat := c.toNat - '0'.toNat

/-- A JSON value, as returned by `response.json()`. -/
inductive JValue where
  | jstr (s : PyStr)
  | jnum (n : Int)
  | jbool (b : Bool)
  | jnull
  | jarr (elems : List JValue)
  | jobj (fields : List (PyStr × JValue))

/-- Field lookup in a JSON object (`dict` access / `dict.get`); JSON objects
decoded by the Python `json` module have unique keys, so first-match lookup is
faithful. -/
def lookupField (fields : List (PyStr × JValue)) (key : PyStr) : Option JValue :=
  match fields with
  | [] => none
  | f :: rest => if f.1 = key then some f.2 else lookupField rest key

/-! ### exceptions.py -/

/-- The exception class raised by `raise_for_status`, one kind per class in
`exceptions.py`; `generic` is the base class `ArtifactStoreError` itself. -/
inductive ErrorKind where
  | badRequest | unauthorized | forbidden | notFound | conflict
  | internalServer | serviceUnavailable | generic
  deriving DecidableEq, Repr

/-- `ArtifactStoreError`: carries the class (kind), the message passed to the
constructor, and `status_code` (which defaults to Python `None` when the
constructor is called with only a message). The message is a `JValue` because
`raise_for_status` passes `error_data.get("error", response.text)`, which is
whatever JSON value the `error` field held. -/
structure ArtifactStoreError where
  kind : ErrorKind
  message : JValue
  status_code : Option Nat

/-- `BadRequestError.__init__`: passes 400 to the base constructor. -/
def BadRequestError (message : JValue) : ArtifactStoreError :=
  ⟨.badRequest, message, some 400⟩

/-- `UnauthorizedError.__init__`. -/
def UnauthorizedError (message : JValue) : ArtifactStoreError :=
  ⟨.unauthorized, message, some 401⟩

/-- `ForbiddenError.__init__`. -/
def ForbiddenError (message : JValue) : ArtifactStoreError :=
  ⟨.forbidden, message, some 403⟩

/-- `NotFoundError.__init__`. -/
def NotFoundError (message : JValue) : ArtifactStoreError :=
  ⟨.notFound, message, some 404⟩

/-- `ConflictError.__init__`. -/
def ConflictError (message : JValue) : ArtifactStoreError :=
  ⟨.conflict, message, some 409⟩

/-- `InternalServerError.__init__`. -/
def InternalServerError (message : JValue) : ArtifactStoreError :=
  ⟨.internalServer, message, some 500⟩

/-- `ServiceUnavailableError.__init__`. -/
def ServiceUnavailableError (message : JValue) : ArtifactStoreError :=
  ⟨.serviceUnavailable, message, some 503⟩

/-- `ArtifactStoreError(message)` called directly, as `raise_for_status` does
for unmapped status codes: `status_code` takes its default value `None`. -/
def ArtifactStoreErrorMk (message : JValue) : ArtifactStoreError :=
  ⟨.generic, message, none⟩

/-- An HTTP response as seen by the SDK: status code, body text, the result
of `response.json()` (`none` when the body is not valid JSON and the call
raises), and response headers in arrival order. -/
structure HttpResponse where
  status_code : Nat
  text : PyStr
  jsonBody : Option JValue
  headers : List (PyStr × PyStr)

/-- The `error_map` dictionary lookup `error_map.get(status_code, ArtifactStoreError)`
in `raise_for_status`. -/
def errorClassFor (code : Nat) : JValue → ArtifactStoreError :=
  if code = 400 then BadRequestError
  else if code = 401 then UnauthorizedError
  else if code = 403 then ForbiddenError
  else if code = 404 then NotFoundError
  else if code = 409 then ConflictError
  else if code = 500 then InternalServerError
  else if code = 503 then ServiceUnavailableError
  else ArtifactStoreErrorMk

/-- `raise_for_status(response)`: returns `none` when the Python function
returns without raising, `some e` when it raises `e`.  The `try` block covers
both `response.json()` and `error_data.get(...)`: a body that is not JSON, or
whose JSON value is not a dict (so that `.get` raises `AttributeError`), falls
into the `except` branch, where the message is `response.text` or
`"HTTP <code>"` when the text is empty. -/
def raise_for_status (r : HttpResponse) : Option ArtifactStoreError :=
  if r.status_code < 400 then none
  else
    let message : JValue :=
      match r.jsonBody with
      | some (JValue.jobj fields) =>
        match lookupField fields (str "error") with
        | some v => v
        | none => JValue.jstr r.text
      | _ =>
        if r.text = [] then JValue.jstr (str "HTTP " ++ pyStrOfNat r.status_code)
        else JValue.jstr r.text
    some (errorClassFor r.status_code message)

/-- The status codes that `error_map` maps to a dedicated exception class. -/
def mappedCodes : List Nat := [400, 401, 403, 404, 409, 500, 503]

/-! ### Dates: datetime.strptime (RFC-1123 format) and datetime.fromisoformat -/

/-- A naive `datetime.datetime` value; the SDK never reads tzinfo, so offsets
are validated and dropped. -/
structure Datetime where
  year : Nat
  month : Nat
  day : Nat
  hour : Nat
  minute : Nat
  second : Nat
  deriving DecidableEq, Repr

/-- Gregorian leap-year rule, as `datetime` uses. -/
def isLeapYear (y : Nat) : Bool :=
  (y % 4 == 0) && (y % 100 != 0 || y % 400 == 0)

/-- Number of days in a month, as `datetime` validates. -/
def daysInMonth (y m : Nat) : Nat :=
  if m = 2 then (if isLeapYear y then 29 else 28)
  else if m = 4 ∨ m = 6 ∨ m = 9 ∨ m = 11 then 30
  else 31

/-- `datetime.datetime(year, month, day, hour, minute, second)`: validates the
field ranges, raising `ValueError` (here `none`) on an out-of-range value such
as February 30. -/
def mkDatetime (year month day hour minute second : Nat) : Option Datetime :=
  if 1 ≤ year ∧ year ≤ 9999 ∧ 1 ≤ month ∧ month ≤ 12 ∧ 1 ≤ day ∧
      day ≤ daysInMonth year month ∧ hour ≤ 23 ∧ minute ≤ 59 ∧ second ≤ 59 then
    some ⟨year, month, day, hour, minute, second⟩
  else none

/-- Case-insensitive match of one of `names` (given lowercase) at the front of
`s`, returning the index (counted from `i`) of the matched name and the rest
of the input.  Mirrors the name alternation `_strptime.TimeRE` builds for a
directive; all names used here are ASCII and pairwise non-prefix. -/
def matchName (names : List PyStr) (s : PyStr) (i : Nat) : Option (Nat × PyStr) :=
  match names with
  | [] => none
  | n :: rest =>
    if n.isPrefixOf (pyLower s) then some (i, s.drop n.length)
    else matchName rest s (i + 1)

/-- A numeric directive matching one or two digits with the value range
`[lo, hi]`, two digits preferred, as the regex alternations `_strptime` builds
for `%d`, `%H`, `%M` and `%S` do. -/
def parseNum12 (lo hi : Nat) (s : PyStr) : Option (Nat × PyStr) :=
  match s with
  | [] => none
  | [c1] =>
    if c1.isDigit ∧ lo ≤ digitVal c1 ∧ digitVal c1 ≤ hi then some (digitVal c1, [])
    else none
  | c1 :: c2 :: rest =>
    if c1.isDigit ∧ c2.isDigit ∧ lo ≤ 10 * digitVal c1 + digitVal c2 ∧
        10 * digitVal c1 + digitVal c2 ≤ hi then
      some (10 * digitVal c1 + digitVal c2, rest)
    else if c1.isDigit ∧ lo ≤ digitVal c1 ∧ digitVal c1 ≤ hi then
      some (digitVal c1, c2 :: rest)
    else none

/-- The `%d` directive: one or two digits in `[1, 31]`, also accepting a
space-padded single digit (`" 1"`), per `_strptime`'s regex for `%d`. -/
def parseDay (s : PyStr) : Option (Nat × PyStr) :=
  match parseNum12 1 31 s with
  | some r => some r
  | none =>
    match s with
    | ' ' :: c :: rest =>
      if c.isDigit ∧ 1 ≤ digitVal c then some (digitVal c, rest) else none
    | _ => none

/-- The `%Y` directive: exactly four digits. -/
def parseYear (s : PyStr) : Option (Nat × PyStr) :=
  match s with
  | a :: b :: c :: d :: rest =>
    if a.isDigit ∧ b.isDigit ∧ c.isDigit ∧ d.isDigit then
      some (1000 * digitVal a + 100 * digitVal b + 10 * digitVal c + digitVal d, rest)
    else none
  | _ => none

/-- A literal character of the format string. -/
def parseLit (c : Char) (s : PyStr) : Option PyStr :=
  match s with
  | x :: rest => if x = c then some rest else none
  | [] => none

/-- Literal whitespace in a `strptime` format matches one or more whitespace
characters of the input. -/
def parseWs (s : PyStr) : Option PyStr :=
  match s with
  | c :: rest =>
    if c.isWhitespace then some (rest.dropWhile Char.isWhitespace) else none
  | [] => none

/-- The `%Z` directive: a known timezone name, case-insensitively.  CPython
accepts `UTC`, `GMT` and the names of the process-local timezone; the
environment-dependent local names are omitted from the model (RFC-1123 dates
carry `GMT`). -/
def parseTZ (s : PyStr) : Option PyStr :=
  match matchName [str "utc", str "gmt"] s 0 with
  | some r => some r.2
  | none => none

/-- `datetime.strptime(s, "%a, %d %b %Y %H:%M:%S %Z")` with the C locale's
day/month names: `none` models the `ValueError` the call raises on input that
does not match the format (including out-of-range dates such as February 30,
which fail in the final `datetime` construction). -/
def strptimeRFC1123 (s : PyStr) : Option Datetime := do
  let (_, s) ← matchName
    [str "mon", str "tue", str "wed", str "thu", str "fri", str "sat", str "sun"] s 0
  let s ← parseLit ',' s
  let s ← parseWs s
  let (day, s) ← parseDay s
  let s ← parseWs s
  let (month, s) ← matchName
    [str "jan", str "feb", str "mar", str "apr", str "may", str "jun",
     str "jul", str "aug", str "sep", str "oct", str "nov", str "dec"] s 1
  let s ← parseWs s
  let (year, s) ← parseYear s
  let s ← parseWs s
  let (hour, s) ← parseNum12 0 23 s
  let s ← parseLit ':' s
  let (minute, s) ← parseNum12 0 59 s
  let s ← parseLit ':' s
  let (second, s) ← parseNum12 0 61 s
  let s ← parseWs s
  let s ← parseTZ s
  if s = [] then mkDatetime year month day hour minute second else none

/-- Exactly two digits, as in the fixed-width fields of an ISO-8601 date. -/
def parseNum2 (s : PyStr) : Option (Nat × PyStr) :=
  match s with
  | c1 :: c2 :: rest =>
    if c1.isDigit ∧ c2.isDigit then some (10 * digitVal c1 + digitVal c2, rest)
    else none
  | _ => none

/-- The optional fractional-second and UTC-offset tail of an ISO-8601 string;
the values are validated and dropped (the SDK never reads microseconds or
tzinfo). -/
def parseIsoTail (s : PyStr) : Option PyStr :=
  let s1 :=
    match s with
    | '.' :: rest =>
      if rest.takeWhile Char.isDigit ≠ [] then some (rest.dropWhile Char.isDigit)
      else none
    | _ => some s
  match s1 with
  | none => none
  | some s2 =>
    match s2 with
    | [] => some []
    | sign :: rest =>
      if sign = '+' ∨ sign = '-' then do
        let (oh, r) ← parseNum2 rest
        let r ← parseLit ':' r
        let (om, r) ← parseNum2 r
        if oh ≤ 23 ∧ om ≤ 59 then some r else none
      else none

/-- `datetime.fromisoformat` restricted to the shapes this SDK feeds it (each
call site first rewrites `"Z"` to `"+00:00"`):
`YYYY-MM-DD[*HH:MM:SS[.f+][±HH:MM]]` with `*` being `T` or a space; `none`
models the `ValueError` raised on anything else. -/
def fromisoformat (s : PyStr) : Option Datetime := do
  let (year, s) ← parseYear s
  let s ← parseLit '-' s
  let (month, s) ← parseNum2 s
  let s ← parseLit '-' s
  let (day, s) ← parseNum2 s
  match s with
  | [] => mkDatetime year month day 0 0 0
  | sep :: rest =>
    if sep = 'T' ∨ sep = ' ' then do
      let (hour, s) ← parseNum2 rest
      let s ← parseLit ':' s
      let (minute, s) ← parseNum2 s
      let s ← parseLit ':' s
      let (second, s) ← parseNum2 s
      let s ← parseIsoTail s
      if s = [] then mkDatetime year month day hour minute second else none
    else none

/-! ### models.py and client.py -/

/-- `Object` (models.py): the object/artifact metadata record. -/
structure Object where
  key : PyStr
  size : Int
  last_modified : Datetime
  etag : PyStr
  content_type : PyStr
  metadata : List (PyStr × PyStr)

/-- `ListObjectsResult` (models.py); the source field `prefix` is named
`prefix_` here. -/
structure ListObjectsResult where
  objects : List Object
  prefix_ : PyStr
  max_keys : Int
  is_truncated : Bool

/-- `Signature` (models.py). -/
structure Signature where
  id : PyStr
  artifact_digest : PyStr
  signature : PyStr
  algorithm : PyStr
  signed_by : PyStr
  timestamp : Datetime

/-- `SBOM` (models.py). -/
structure SBOM where
  id : PyStr
  artifact_digest : PyStr
  format : PyStr
  content : PyStr
  timestamp : Datetime

/-- `CompletedPart` (models.py): a part number and ETag collected by the
caller for the completion call. -/
structure CompletedPart where
  part_number : Int
  etag : PyStr

/-- The `ValueError` raised by `Config.__init__`. -/
structure ValueError where
  message : PyStr

/-- `Config` (client.py): the stored configuration fields. -/
structure Config where
  base_url : PyStr
  token : Option PyStr
  timeout : Int
  insecure_skip_verify : Bool
  user_agent : PyStr

/-- `Config.__init__`: `if not base_url: raise ValueError("base_url is required")`
(a `str` is falsy exactly when it is empty); otherwise stores
`base_url.rstrip("/")` and the remaining arguments unchanged. -/
def Config.init (base_url : PyStr) (token : Option PyStr) (timeout : Int)
    (insecure_skip_verify : Bool) (user_agent : PyStr) : Except ValueError Config :=
  if base_url = [] then Except.error ⟨str "base_url is required"⟩
  else Except.ok ⟨pyRstripSlash base_url, token, timeout, insecure_skip_verify, user_agent⟩

/-- The Python exception raised by response-decoding code: a missing mandatory
dict key (`KeyError`), an unparseable value (`ValueError`), or a value of the
wrong shape for the operation performed on it (`TypeError`/`AttributeError`,
both modelled as `typeError`). -/
inductive DecodeError where
  | keyError (key : PyStr)
  | valueError
  | typeError
  deriving DecidableEq, Repr

/-- The SDK's three orthogonal failure tiers: transport errors raised by the
HTTP session, status-mapped errors raised by `raise_for_status`, and decode
errors raised while deserializing a successful response. -/
inductive ClientError where
  | transport (detail : PyStr)
  | status (e : ArtifactStoreError)
  | decode (e : DecodeError)

/-! ### operations.py -/

/-- `response.headers` lookup: `requests` stores headers in a case-insensitive
dict, so `headers.get(name)` compares names case-insensitively. -/
def headersGetOpt (headers : List (PyStr × PyStr)) (name : PyStr) : Option PyStr :=
  (headers.find? (fun h => pyLower h.1 == pyLower name)).map (fun h => h.2)

/-- `response.headers.get(name, dflt)`. -/
def headersGet (headers : List (PyStr × PyStr)) (name : PyStr) (dflt : PyStr) : PyStr :=
  (headersGetOpt headers name).getD dflt

/-- Python `int(s)` on a header value: optional surrounding whitespace and an
optional sign followed by at least one digit (numeric-literal underscores,
which never occur in HTTP headers, are not modelled); raises `ValueError`
otherwise. -/
def pyIntOfStr (s : PyStr) : Except DecodeError Int :=
  let t := ((s.dropWhile Char.isWhitespace).reverse.dropWhile Char.isWhitespace).reverse
  let sign : Int := match t with | '-' :: _ => -1 | _ => 1
  let digits : PyStr := match t with
    | '+' :: rest => rest
    | '-' :: rest => rest
    | _ => t
  if digits ≠ [] ∧ digits.all Char.isDigit then
    Except.ok (sign * (digits.foldl (fun acc c => 10 * acc + digitVal c) 0 : Nat))
  else Except.error DecodeError.valueError

/-- The metadata-header loop of `Operations.upload` (and of
`initiate_multipart_upload`): `headers[f"X-Amz-Meta-{k}"] = v` for each
metadata entry, in iteration order; dict keys are unique, so each entry
yields exactly one header. -/
def uploadMetadataHeaders (metadata : List (PyStr × PyStr)) : List (PyStr × PyStr) :=
  metadata.map (fun kv => (str "X-Amz-Meta-" ++ kv.1, kv.2))

/-- The full request-header dict built by `Operations.upload`:
`{"Content-Type": content_type}` followed by one metadata header per entry. -/
def uploadHeaders (content_type : PyStr) (metadata : List (PyStr × PyStr)) :
    List (PyStr × PyStr) :=
  (str "Content-Type", content_type) :: uploadMetadataHeaders metadata

/-- The header-extraction loop of `Operations.get_object_metadata`: keep every
response header whose name lowercases to an `x-amz-meta-` prefix, stripping
the first 11 characters (`header_name[11:]`) of the original name.  A
`requests` header dict cannot hold two names equal up to case, so the
association list in iteration order is the resulting dict. -/
def extractAmzMetadata (headers : List (PyStr × PyStr)) : List (PyStr × PyStr) :=
  (headers.filter (fun h => (str "x-amz-meta-").isPrefixOf (pyLower h.1))).map
    (fun h => (h.1.drop 11, h.2))

/-- The `Last-Modified` decoding of `Operations.get_object_metadata`:
`datetime.strptime(s, "%a, %d %b %Y %H:%M:%S %Z") if s else datetime.now()`
where `s = response.headers.get("Last-Modified", "")`; a `strptime` failure
propagates as `ValueError`. -/
def lastModifiedOf (headers : List (PyStr × PyStr)) (now : Datetime) :
    Except DecodeError Datetime :=
  let last_modified_str := headersGet headers (str "Last-Modified") []
  if last_modified_str ≠ [] then
    match strptimeRFC1123 last_modified_str with
    | some d => Except.ok d
    | none => Except.error DecodeError.valueError
  else Except.ok now

/-- `Operations.get_object_metadata`, given the HEAD response headers and the
current time (for the `datetime.now()` fallback): the decoded `Object`, or the
exception the decoding raises.  `size` is
`int(response.headers.get("Content-Length", 0))` (the default is already an
int), `etag` is the quote-stripped `ETag` header, `content_type` the
`Content-Type` header. -/
def get_object_metadata (key : PyStr) (headers : List (PyStr × PyStr))
    (now : Datetime) : Except DecodeError Object := do
  let metadata := extractAmzMetadata headers
  let size ←
    match headersGetOpt headers (str "Content-Length") with
    | some v => pyIntOfStr v
    | none => Except.ok 0
  let last_modified ← lastModifiedOf headers now
  Except.ok
    { key := key
      size := size
      last_modified := last_modified
      etag := pyStripQuotes (headersGet headers (str "ETag") [])
      content_type := headersGet headers (str "Content-Type") []
      metadata := metadata }

/-- The value of a query parameter in the `params` dict: `list_objects` stores
a `str` for `prefix` and an `int` for `max-keys`. -/
inductive ParamValue where
  | s (v : PyStr)
  | i (v : Int)
  deriving DecidableEq, Repr

/-- The query-parameter dict built by `Operations.list_objects`: `prefix`
added when non-empty (`str` truthiness), then `max-keys` added when `max_keys`
is truthy (a non-zero int). -/
def listObjectsParams (prefix_ : PyStr) (max_keys : Int) : List (PyStr × ParamValue) :=
  (if prefix_ ≠ [] then [(str "prefix", ParamValue.s prefix_)] else []) ++
  (if max_keys ≠ 0 then [(str "max-keys", ParamValue.i max_keys)] else [])

/-- Decoding of one entry of `contents` in `Operations.list_objects`:
`obj["key"]` raises `KeyError` when missing; `size`, `etag` and `contentType`
take defaults when missing; `lastModified`, when present and non-empty, is
decoded by `fromisoformat` after `"Z" → "+00:00"` rewriting, and otherwise
defaults to `datetime.now()`; `metadata` is the dataclass default `{}`. -/
def decodeContentEntry (j : JValue) (now : Datetime) : Except DecodeError Object :=
  match j with
  | JValue.jobj fields => do
    let key ←
      match lookupField fields (str "key") with
      | some (JValue.jstr s) => Except.ok s
      | some _ => Except.error DecodeError.typeError
      | none => Except.error (DecodeError.keyError (str "key"))
    let size ←
      match lookupField fields (str "size") with
      | some (JValue.jnum n) => Except.ok n
      | some _ => Except.error DecodeError.typeError
      | none => Except.ok 0
    let last_modified ←
      match lookupField fields (str "lastModified") with
      | some (JValue.jstr s) =>
        if s ≠ [] then
          match fromisoformat (pyReplace s (str "Z") (str "+00:00")) with
          | some d => Except.ok d
          | none => Except.error DecodeError.valueError
        else Except.ok now
      | some _ => Except.error DecodeError.typeError
      | none => Except.ok now
    let etag ←
      match lookupField fields (str "etag") with
      | some (JValue.jstr s) => Except.ok s
      | some _ => Except.error DecodeError.typeError
      | none => Except.ok []
    let content_type ←
      match lookupField fields (str "contentType") with
      | some (JValue.jstr s) => Except.ok s
      | some _ => Except.error DecodeError.typeError
      | none => Except.ok []
    Except.ok ⟨key, size, last_modified, etag, content_type, []⟩
  | _ => Except.error DecodeError.typeError

/-- The response decoding of `Operations.list_objects`: iterates
`data.get("contents", [])`, then builds `ListObjectsResult` with
`data.get("prefix", "")`, `data.get("maxKeys", 1000)` and
`data.get("isTruncated", False)`. -/
def decodeListObjects (j : JValue) (now : Datetime) :
    Except DecodeError ListObjectsResult :=
  match j with
  | JValue.jobj fields => do
    let entries ←
      match lookupField fields (str "contents") with
      | some (JValue.jarr elems) => Except.ok elems
      | some _ => Except.error DecodeError.typeError
      | none => Except.ok []
    let objects ← entries.mapM (fun e => decodeContentEntry e now)
    let p ←
      match lookupField fields (str "prefix") with
      | some (JValue.jstr s) => Except.ok s
      | some _ => Except.error DecodeError.typeError
      | none => Except.ok []
    let mk ←
      match lookupField fields (str "maxKeys") with
      | some (JValue.jnum n) => Except.ok n
      | some _ => Except.error DecodeError.typeError
      | none => Except.ok 1000
    let trunc ←
      match lookupField fields (str "isTruncated") with
      | some (JValue.jbool b) => Except.ok b
      | some _ => Except.error DecodeError.typeError
      | none => Except.ok false
    Except.ok ⟨objects, p, mk, trunc⟩
  | _ => Except.error DecodeError.typeError

/-- The return value of `Operations.upload_part`:
`response.headers.get("ETag", "").strip('"')`. -/
def upload_part_result (headers : List (PyStr × PyStr)) : PyStr :=
  pyStripQuotes (headersGet headers (str "ETag") [])

/-- The JSON body built by `Operations.complete_multipart_upload`:
`{"parts": [{"partNumber": p.part_number, "etag": p.etag} for p in parts]}`,
a comprehension over the caller's list in its given order. -/
def completeMultipartBody (parts : List CompletedPart) : JValue :=
  JValue.jobj [(str "parts",
    JValue.jarr (parts.map (fun p =>
      JValue.jobj [(str "partNumber", JValue.jnum p.part_number),
                   (str "etag", JValue.jstr p.etag)])))]

/-- The `parts` array of a completion request body (empty for any other
shape), used to state what `complete_multipart_upload` sends. -/
def partsEntries (j : JValue) : List JValue :=
  match j with
  | JValue.jobj fields =>
    match lookupField fields (str "parts") with
    | some (JValue.jarr elems) => elems
    | _ => []
  | _ => []

/-! ### operations.py: progress reporting (ProgressReader.read and the
download loop of Operations.download) -/

/-- One call of `ProgressReader.read`, given the byte chunk that
`self.data.read(size)` returned (bytes modelled as a list of byte values).
`bytes_read` is the counter before the call and `calls` the trace of arguments
passed to the progress callback so far; a non-empty chunk (Python truthiness
of `bytes`) bumps the counter and invokes the callback with the new counter. -/
def progressReaderRead (bytes_read : Nat) (calls : List Nat) (chunk : List Nat) :
    Nat × List Nat :=
  if chunk ≠ [] then
    (bytes_read + chunk.length, calls ++ [bytes_read + chunk.length])
  else (bytes_read, calls)

/-- An upload through `ProgressReader`: the wrapped stream's successive `read`
calls return the chunks in `chunks`; the result is the final `bytes_read`
counter and the trace of callback arguments in call order. -/
def uploadProgressTrace (chunks : List (List Nat)) : Nat × List Nat :=
  chunks.foldl (fun st chunk => progressReaderRead st.1 st.2 chunk) (0, [])

/-- The streaming loop of `Operations.download` with a progress callback:
folds over the chunks yielded by `response.iter_content`, returning the bytes
written to `writer`, the final `bytes_transferred` counter, and the trace of
callback arguments in call order. -/
def downloadProgressLoop (chunks : List (List Nat)) :
    List Nat × Nat × List Nat :=
  chunks.foldl
    (fun st chunk =>
      if chunk ≠ [] then
        (st.1 ++ chunk, st.2.1 + chunk.length, st.2.2 ++ [st.2.1 + chunk.length])
      else st)
    ([], 0, [])

/-- The running byte totals at which the progress callback fires, starting
from counter value `acc`: one entry per non-empty chunk, holding the sum of
the lengths of all chunks up to and including it. -/
def cumulativeTotals : List (List Nat) → Nat → List Nat
  | [], _ => []
  | chunk :: rest, acc =>
    if chunk ≠ [] then
      (acc + chunk.length) :: cumulativeTotals rest (acc + chunk.length)
    else cumulativeTotals rest acc

/-! ### supplychain.py -/

/-- Mandatory string field access `data[key]` in the supply-chain decoders:
`KeyError` when the key is missing. -/
def jGetStr (fields : List (PyStr × JValue)) (key : PyStr) : Except DecodeError PyStr :=
  match lookupField fields key with
  | some (JValue.jstr s) => Except.ok s
  | some _ => Except.error DecodeError.typeError
  | none => Except.error (DecodeError.keyError key)

/-- The `Signature(...)` construction shared by `sign_artifact`,
`get_signatures` and `verify_signatures`: every field is a mandatory dict
access, and `timestamp` is
`datetime.fromisoformat(data["timestamp"].replace("Z", "+00:00"))` — there is
no `datetime.now()` fallback anywhere in this decoder. -/
def decodeSignature (j : JValue) : Except DecodeError Signature :=
  match j with
  | JValue.jobj fields => do
    let i ← jGetStr fields (str "id")
    let dig ← jGetStr fields (str "artifactDigest")
    let sg ← jGetStr fields (str "signature")
    let alg ← jGetStr fields (str "algorithm")
    let sby ← jGetStr fields (str "signedBy")
    let ts ← jGetStr fields (str "timestamp")
    let t ←
      match fromisoformat (pyReplace ts (str "Z") (str "+00:00")) with
      | some d => Except.ok d
      | none => Except.error DecodeError.valueError
    Except.ok ⟨i, dig, sg, alg, sby, t⟩
  | _ => Except.error DecodeError.typeError

/-- The `SBOM(...)` construction shared by `attach_sbom` and `get_sbom`:
every field is a mandatory dict access, `timestamp` decoded as in
`decodeSignature`, with no fallback. -/
def decodeSBOM (j : JValue) : Except DecodeError SBOM :=
  match j with
  | JValue.jobj fields => do
    let i ← jGetStr fields (str "id")
    let dig ← jGetStr fields (str "artifactDigest")
    let fm ← jGetStr fields (str "format")
    let ct ← jGetStr fields (str "content")
    let ts ← jGetStr fields (str "timestamp")
    let t ←
      match fromisoformat (pyReplace ts (str "Z") (str "+00:00")) with
      | some d => Except.ok d
      | none => Except.error DecodeError.valueError
    Except.ok ⟨i, dig, fm, ct, t⟩
  | _ => Except.error DecodeError.typeError

/-- `Attestation` (models.py): the `data` payload is an arbitrary
string-keyed JSON object (`Dict[str, Any]`). -/
structure Attestation where
  id : PyStr
  artifact_digest : PyStr
  type : PyStr
  data : List (PyStr × JValue)
  timestamp : Datetime

/-- Mandatory dict-valued field access `data[key]` (the attestation `data`
payload): `KeyError` when the key is missing. -/
def jGetObj (fields : List (PyStr × JValue)) (key : PyStr) :
    Except DecodeError (List (PyStr × JValue)) :=
  match lookupField fields key with
  | some (JValue.jobj o) => Except.ok o
  | some _ => Except.error DecodeError.typeError
  | none => Except.error (DecodeError.keyError key)

/-- The `Attestation(...)` construction shared by `add_attestation` and
`get_attestations`: every field is a mandatory dict access
(`resp_data["id"]`, `resp_data["artifactDigest"]`, `resp_data["type"]`,
`resp_data["data"]`, `resp_data["timestamp"]`), with `timestamp` decoded by
`datetime.fromisoformat(... .replace("Z", "+00:00"))` as in `decodeSignature`
— no `datetime.now()` fallback anywhere. -/
def decodeAttestation (j : JValue) : Except DecodeError Attestation :=
  match j with
  | JValue.jobj fields => do
    let i ← jGetStr fields (str "id")
    let dig ← jGetStr fields (str "artifactDigest")
    let ty ← jGetStr fields (str "type")
    let dt ← jGetObj fields (str "data")
    let ts ← jGetStr fields (str "timestamp")
    let t ←
      match fromisoformat (pyReplace ts (str "Z") (str "+00:00")) with
      | some d => Except.ok d
      | none => Except.error DecodeError.valueError
    Except.ok ⟨i, dig, ty, dt, t⟩
  | _ => Except.error DecodeError.typeError

/-- A fixed reference instant standing in for `datetime.now()` in concrete
evaluations. -/
def testNow : Datetime := ⟨2026, 1, 2, 3, 4, 5⟩

/-! ### Helper lemmas -/

theorem takeWhile_char_replicate (c : Char) (s : PyStr) :
    s = List.replicate (List.length (s.takeWhile (fun x => x = c))) c
        ++ s.dropWhile (fun x => x = c) := by
  have h := List.eq_replicate_of_mem (l := s.takeWhile (fun x => x = c)) (a := c)
    (fun b hb => by simpa using List.mem_takeWhile_imp hb)
  nth_rewrite 1 [← List.takeWhile_append_dropWhile (fun x => decide (x = c)) s]
  rw [← h]

theorem head?_dropWhile_char (c : Char) (s : PyStr) :
    (s.dropWhile (fun x => x = c)).head? ≠ some c := by
  induction s with
  | nil => simp
  | cons x rest ih =>
    by_cases hx : x = c
    · simpa [List.dropWhile_cons, hx] using ih
    · simp [List.dropWhile_cons, hx]

theorem pyRstripSlash_spec (s : PyStr) :
    s = pyRstripSlash s
        ++ List.replicate (List.length (s.reverse.takeWhile (fun x => x = '/'))) '/' ∧
    (pyRstripSlash s).getLast? ≠ some '/' := by
  constructor
  · have h2 := congrArg List.reverse (takeWhile_char_replicate '/' s.reverse)
    simpa [pyRstripSlash, List.reverse_append, List.reverse_replicate] using h2
  · rw [pyRstripSlash, List.getLast?_reverse]
    exact head?_dropWhile_char '/' s.reverse

theorem pyStripQuotes_eq_append (s : PyStr) :
    ∃ a b, s = List.replicate a '"' ++ pyStripQuotes s ++ List.replicate b '"' := by
  refine ⟨List.length (s.takeWhile (fun x => x = '"')),
    List.length ((s.dropWhile (fun x => x = '"')).reverse.takeWhile (fun x => x = '"')),
    ?_⟩
  have h1 := takeWhile_char_replicate '"' s
  have h2 := congrArg List.reverse
    (takeWhile_char_replicate '"' (s.dropWhile (fun x => x = '"')).reverse)
  simp only [List.reverse_append, List.reverse_reverse, List.reverse_replicate] at h2
  rw [pyStripQuotes, List.append_assoc, ← h2, ← h1]

theorem pyStripQuotes_getLast (s : PyStr) :
    (pyStripQuotes s).getLast? ≠ some '"' := by
  rw [pyStripQuotes, List.getLast?_reverse]
  exact head?_dropWhile_char '"' (s.dropWhile (fun x => x = '"')).reverse

theorem pyStripQuotes_head (s : PyStr) :
    (pyStripQuotes s).head? ≠ some '"' := by
  have htHead := head?_dropWhile_char '"' s
  rw [pyStripQuotes]
  rcases hL : (s.dropWhile (fun x => x = '"')).reverse.dropWhile (fun x => x = '"')
    with _ | ⟨y, ys⟩
  · simp
  · have hsuff : (y :: ys) <:+ (s.dropWhile (fun x => x = '"')).reverse :=
      hL ▸ List.dropWhile_suffix _
    obtain ⟨r, hr⟩ := hsuff
    have hlast : ((y :: ys) : PyStr).getLast?
        = (s.dropWhile (fun x => x = '"')).reverse.getLast? := by
      rw [← hr, List.getLast?_append_of_ne_nil]
      simp
    rw [List.head?_reverse, hlast, List.getLast?_reverse]
    exact htHead

theorem uploadProgressTrace_foldl (chunks : List (List Nat)) :
    ∀ b cs, chunks.foldl (fun st chunk => progressReaderRead st.1 st.2 chunk) (b, cs)
      = (b + (chunks.map List.length).sum, cs ++ cumulativeTotals chunks b) := by
  induction chunks with
  | nil => intro b cs; simp [cumulativeTotals]
  | cons c rest ih =>
    intro b cs
    simp only [List.foldl_cons]
    by_cases hc : c = []
    · rw [show progressReaderRead b cs c = (b, cs) by simp [progressReaderRead, hc], ih]
      simp [cumulativeTotals, hc]
    · rw [show progressReaderRead b cs c = (b + c.length, cs ++ [b + c.length]) by
        simp [progressReaderRead, hc], ih]
      simp [cumulativeTotals, hc, Nat.add_assoc]

theorem downloadProgressLoop_foldl (chunks : List (List Nat)) :
    ∀ w b cs, chunks.foldl
        (fun st chunk =>
          if chunk ≠ [] then
            (st.1 ++ chunk, st.2.1 + chunk.length, st.2.2 ++ [st.2.1 + chunk.length])
          else st)
        (w, b, cs)
      = (w ++ chunks.flatten, b + (chunks.map List.length).sum,
         cs ++ cumulativeTotals chunks b) := by
  induction chunks with
  | nil => intro w b cs; simp [cumulativeTotals]
  | cons c rest ih =>
    intro w b cs
    simp only [List.foldl_cons]
    by_cases hc : c = []
    · rw [if_neg (not_not_intro hc), ih]
      simp [cumulativeTotals, hc]
    · rw [if_pos hc, ih]
      simp [cumulativeTotals, hc, Nat.add_assoc]

theorem cumulativeTotals_le (chunks : List (List Nat)) :
    ∀ acc x, x ∈ cumulativeTotals chunks acc → acc ≤ x := by
  induction chunks with
  | nil => intro acc x hx; simp [cumulativeTotals] at hx
  | cons c rest ih =>
    intro acc x hx
    by_cases hc : c = []
    · exact ih acc x (by simpa [cumulativeTotals, hc] using hx)
    · simp only [cumulativeTotals, hc, ne_eq, not_false_iff, if_pos,
        List.mem_cons] at hx
      rcases hx with rfl | hx
      · exact Nat.le_add_right acc c.length
      · exact le_trans (Nat.le_add_right acc c.length) (ih _ x hx)

theorem cumulativeTotals_sorted (chunks : List (List Nat)) :
    ∀ acc, List.Sorted (· ≤ ·) (cumulativeTotals chunks acc) := by
  induction chunks with
  | nil => intro acc; simp [cumulativeTotals]
  | cons c rest ih =>
    intro acc
    by_cases hc : c = []
    · simpa [cumulativeTotals, hc] using ih acc
    · simp only [cumulativeTotals, hc, ne_eq, not_false_iff, if_pos,
        List.sorted_cons]
      exact ⟨fun x hx => cumulativeTotals_le rest _ x hx, ih _⟩

theorem cumulativeTotals_eq_nil (chunks : List (List Nat)) :
    ∀ acc, cumulativeTotals chunks acc = [] → (chunks.map List.length).sum = 0 := by
  induction chunks with
  | nil => intro acc _; simp
  | cons c rest ih =>
    intro acc h
    by_cases hc : c = []
    · simp only [cumulativeTotals, hc] at h
      simp [hc, ih acc (by simpa using h)]
    · simp [cumulativeTotals, hc] at h

theorem cumulativeTotals_getLast (chunks : List (List Nat)) :
    ∀ acc, cumulativeTotals chunks acc ≠ [] →
      (cumulativeTotals chunks acc).getLast?
        = some (acc + (chunks.map List.length).sum) := by
  induction chunks with
  | nil => intro acc h; simp [cumulativeTotals] at h
  | cons c rest ih =>
    intro acc h
    by_cases hc : c = []
    · subst hc
      have h' : cumulativeTotals rest acc ≠ [] := by
        simpa [cumulativeTotals] using h
      simpa [cumulativeTotals] using ih acc h'
    · simp only [cumulativeTotals, hc, ne_eq, not_false_iff, if_pos]
      rcases hT : cumulativeTotals rest (acc + c.length) with _ | ⟨t, ts⟩
      · have : (rest.map List.length).sum = 0 := cumulativeTotals_eq_nil rest _ hT
        simp [this, Nat.add_assoc]
      · have h' := ih (acc + c.length) (by simp [hT])
        rw [hT] at h'
        simpa [Nat.add_assoc] using h'

theorem amzHeaderName_lower (k : PyStr) :
    pyLower (str "X-Amz-Meta-" ++ k) = str "x-amz-meta-" ++ pyLower k := by
  show List.map Char.toLower (str "X-Amz-Meta-" ++ k)
      = str "x-amz-meta-" ++ List.map Char.toLower k
  rw [List.map_append]
  congr 1

theorem amzPrefix_isPrefixOf (k : PyStr) :
    (str "x-amz-meta-").isPrefixOf (pyLower (str "X-Amz-Meta-" ++ k)) = true := by
  rw [amzHeaderName_lower, List.isPrefixOf_iff_prefix]
  exact List.prefix_append _ _

theorem amzHeaderName_drop (k : PyStr) :
    (str "X-Amz-Meta-" ++ k).drop 11 = k := by
  have h := List.drop_left (str "X-Amz-Meta-") k
  rw [show (str "X-Amz-Meta-").length = 11 from rfl] at h
  exact h

theorem extract_upload_roundtrip (metadata : List (PyStr × PyStr)) :
    extractAmzMetadata (uploadMetadataHeaders metadata) = metadata := by
  induction metadata with
  | nil => rfl
  | cons kv rest ih =>
    simp only [uploadMetadataHeaders, List.map_cons] at ih ⊢
    simp only [extractAmzMetadata, List.filter_cons] at ih ⊢
    rw [amzPrefix_isPrefixOf]
    simp only [if_pos, List.map_cons, amzHeaderName_drop]
    rw [ih]

theorem get_object_metadata_ok_fields (key : PyStr) (headers : List (PyStr × PyStr))
    (now : Datetime) (obj : Object)
    (h : get_object_metadata key headers now = Except.ok obj) :
    obj.key = key ∧ obj.metadata = extractAmzMetadata headers ∧
    obj.etag = pyStripQuotes (headersGet headers (str "ETag") []) ∧
    obj.content_type = headersGet headers (str "Content-Type") [] ∧
    lastModifiedOf headers now = Except.ok obj.last_modified := by
  unfold get_object_metadata at h
  simp only [bind, Except.bind] at h
  repeat' split at h
  all_goals first
    | exact Except.noConfusion h
    | (rename_i hlm
       injection h with h'
       subst h'
       exact ⟨rfl, rfl, rfl, rfl, hlm⟩)

/-! ### Claim theorems -/

/-- C1: for a response whose body is the JSON object with single field
`error` holding message `msg`, each status code in
{400, 401, 403, 404, 409, 500, 503} makes `raise_for_status` raise the
corresponding exception class carrying `msg`; the seven kinds are pairwise
distinct; and a response with status code below 400 raises nothing. -/
theorem raise_for_status_status_map :
    (∀ r msg, r.jsonBody = some (.jobj [(str "error", .jstr msg)]) →
      (r.status_code = 400 → raise_for_status r = some (BadRequestError (.jstr msg))) ∧
      (r.status_code = 401 → raise_for_status r = some (UnauthorizedError (.jstr msg))) ∧
      (r.status_code = 403 → raise_for_status r = some (ForbiddenError (.jstr msg))) ∧
      (r.status_code = 404 → raise_for_status r = some (NotFoundError (.jstr msg))) ∧
      (r.status_code = 409 → raise_for_status r = some (ConflictError (.jstr msg))) ∧
      (r.status_code = 500 → raise_for_status r = some (InternalServerError (.jstr msg))) ∧
      (r.status_code = 503 → raise_for_status r = some (ServiceUnavailableError (.jstr msg)))) ∧
    List.Pairwise (· ≠ ·)
      [ErrorKind.badRequest, .unauthorized, .forbidden, .notFound, .conflict,
       .internalServer, .serviceUnavailable] ∧
    (∀ r, r.status_code < 400 → raise_for_status r = none) := by
  refine ⟨fun r msg hjson => ?_, by decide, fun r h => by simp [raise_for_status, h]⟩
  refine ⟨?_, ?_, ?_, ?_, ?_, ?_, ?_⟩ <;>
    intro hc <;> simp [raise_for_status, hjson, hc, lookupField, errorClassFor]

/-- Witness for C1 at a concrete 404 response and a concrete 200 response. -/
theorem raise_for_status_status_map_witness :
    raise_for_status ⟨404, str "body", some (.jobj [(str "error", .jstr (str "gone"))]), []⟩
      = some (NotFoundError (.jstr (str "gone"))) ∧
    raise_for_status ⟨200, str "ok", none, []⟩ = none := by
  constructor
  · exact ((raise_for_status_status_map.1 _ (str "gone") rfl).2.2.2.1) rfl
  · exact raise_for_status_status_map.2.2 _ (by decide)

/-- C2 counterexample: a 418 response with non-JSON body `"teapot"` raises the
generic `ArtifactStoreError` whose `status_code` is Python `None` (the base
constructor's default), not the numeric code 418 that the claim asserts it
carries. -/
theorem raise_for_status_unmapped_counterexample :
    raise_for_status ⟨418, str "teapot", none, []⟩
      = some ⟨.generic, .jstr (str "teapot"), none⟩ ∧
    (none : Option Nat) ≠ some 418 := by
  constructor
  · rfl
  · simp

/-- C2 amended: a mapped status (in {400,401,403,404,409,500,503}) raises an
error carrying the resolved message and the numeric status code; an unmapped
status ≥ 400 with a non-JSON body raises the generic kind carrying the raw
body text, or `"HTTP <code>"` when the body is empty, but with `status_code`
set to Python `None` rather than the numeric code. -/
theorem raise_for_status_unmapped_amended :
    (∀ r msg, r.jsonBody = some (.jobj [(str "error", .jstr msg)]) →
      r.status_code ∈ mappedCodes →
      (raise_for_status r).map (fun e => (e.message, e.status_code))
        = some (.jstr msg, some r.status_code)) ∧
    (∀ r, 400 ≤ r.status_code → r.status_code ∉ mappedCodes → r.jsonBody = none →
      raise_for_status r = some (ArtifactStoreErrorMk
        (JValue.jstr (if r.text = [] then str "HTTP " ++ pyStrOfNat r.status_code
                      else r.text)))) ∧
    (∀ m, (ArtifactStoreErrorMk m).status_code = none) := by
  refine ⟨fun r msg hjson hmem => ?_, fun r h400 hmem hjson => ?_, fun m => rfl⟩
  · simp only [mappedCodes, List.mem_cons, List.mem_singleton] at hmem
    rcases hmem with hc | hc | hc | hc | hc | hc | hc | hfalse <;>
      first
        | simp [raise_for_status, hjson, hc, lookupField, errorClassFor,
            BadRequestError, UnauthorizedError, ForbiddenError, NotFoundError,
            ConflictError, InternalServerError, ServiceUnavailableError]
        | cases hfalse
  · simp only [mappedCodes, List.mem_cons, List.mem_singleton, not_or] at hmem
    obtain ⟨h1, h2, h3, h4, h5, h6, h7, -⟩ := hmem
    simp only [raise_for_status, hjson]
    rw [if_neg (by omega)]
    simp [errorClassFor, h1, h2, h3, h4, h5, h6, h7, apply_ite JValue.jstr]

/-- Witness for the amended C2 at a concrete mapped (409) response and at a
concrete unmapped (418) response. -/
theorem raise_for_status_unmapped_amended_witness :
    (raise_for_status ⟨409, str "b", some (.jobj [(str "error", .jstr (str "dup"))]), []⟩).map
        (fun e => (e.message, e.status_code))
      = some (.jstr (str "dup"), some 409) ∧
    raise_for_status ⟨418, str "teapot2", none, []⟩
      = some (ArtifactStoreErrorMk (JValue.jstr (str "teapot2"))) := by
  constructor
  · exact raise_for_status_unmapped_amended.1 _ (str "dup") rfl (by decide)
  · have h := raise_for_status_unmapped_amended.2.1
      ⟨418, str "teapot2", none, []⟩ (by decide) (by decide) rfl
    simpa using h

/-- C3: for a transfer whose chunks are `chunks` (total size `n`, the sum of
the chunk lengths), both the upload path (`ProgressReader.read`) and the
download loop invoke the progress callback exactly with the running cumulative
byte totals (`cumulativeTotals chunks 0`, never a per-chunk delta), that trace
is non-decreasing, the internal counter ends at `n`, and when the callback
fires at all its final argument equals `n`. -/
theorem progress_callback_cumulative (chunks : List (List Nat)) :
    (uploadProgressTrace chunks).2 = cumulativeTotals chunks 0 ∧
    (downloadProgressLoop chunks).2.2 = cumulativeTotals chunks 0 ∧
    List.Sorted (· ≤ ·) (cumulativeTotals chunks 0) ∧
    (uploadProgressTrace chunks).1 = (chunks.map List.length).sum ∧
    (downloadProgressLoop chunks).2.1 = (chunks.map List.length).sum ∧
    (cumulativeTotals chunks 0 ≠ [] →
      (cumulativeTotals chunks 0).getLast? = some ((chunks.map List.length).sum)) := by
  have hu := uploadProgressTrace_foldl chunks 0 []
  have hd := downloadProgressLoop_foldl chunks [] 0 []
  refine ⟨?_, ?_, cumulativeTotals_sorted chunks 0, ?_, ?_, ?_⟩
  · unfold uploadProgressTrace; rw [hu]; simp
  · unfold downloadProgressLoop; rw [hd]; simp
  · unfold uploadProgressTrace; rw [hu]; simp
  · unfold downloadProgressLoop; rw [hd]; simp
  · intro h
    simpa using cumulativeTotals_getLast chunks 0 h

/-- Witness for C3 at a concrete three-chunk transfer of 5 bytes (with an
empty chunk in the middle, which fires no callback). -/
theorem progress_callback_cumulative_witness :
    (uploadProgressTrace [[7, 8], [], [9, 0, 1]]).2 = [2, 5] ∧
    (cumulativeTotals [[7, 8], [], [9, 0, 1]] 0).getLast? = some 5 := by
  constructor
  · have h := (progress_callback_cumulative [[7, 8], [], [9, 0, 1]]).1
    rw [h]; decide
  · exact (progress_callback_cumulative [[7, 8], [], [9, 0, 1]]).2.2.2.2.2 (by decide)

/-- C4: an upload's metadata dict produces exactly the headers
`X-Amz-Meta-{k}: v`, one per entry; decoding those headers back
(`get_object_metadata`'s loop strips the 11-character prefix from every header
whose name matches case-insensitively) recovers the metadata exactly; and a
successfully decoded `Object` carries exactly that decoded dict. -/
theorem metadata_roundtrip :
    (∀ metadata, extractAmzMetadata (uploadMetadataHeaders metadata) = metadata) ∧
    (∀ content_type metadata k v, (k, v) ∈ metadata →
      (str "X-Amz-Meta-" ++ k, v) ∈ uploadHeaders content_type metadata) ∧
    (∀ headers name v, (str "x-amz-meta-").isPrefixOf (pyLower name) = true →
      (name, v) ∈ headers → (name.drop 11, v) ∈ extractAmzMetadata headers) ∧
    (∀ key headers now obj, get_object_metadata key headers now = Except.ok obj →
      obj.metadata = extractAmzMetadata headers) := by
  refine ⟨extract_upload_roundtrip, fun ct metadata k v hmem => ?_,
    fun headers name v hpre hmem => ?_,
    fun key headers now obj h => (get_object_metadata_ok_fields key headers now obj h).2.1⟩
  · exact List.mem_cons_of_mem _
      (List.mem_map_of_mem (fun kv => (str "X-Amz-Meta-" ++ kv.1, kv.2)) hmem)
  · exact List.mem_map_of_mem _ (List.mem_filter.mpr ⟨hmem, hpre⟩)

/-- Witness for C4 with the metadata dict `{"version": "1.0.0"}` of the spec's
example, and a HEAD response echoing the header back. -/
theorem metadata_roundtrip_witness :
    extractAmzMetadata (uploadMetadataHeaders [(str "version", str "1.0.0")])
      = [(str "version", str "1.0.0")] ∧
    (str "X-Amz-Meta-" ++ str "version", str "1.0.0")
      ∈ uploadHeaders (str "application/octet-stream") [(str "version", str "1.0.0")] ∧
    ((str "X-Amz-Meta-version").drop 11, str "1.0.0")
      ∈ extractAmzMetadata [(str "X-Amz-Meta-version", str "1.0.0")] ∧
    Object.metadata ⟨str "k", 0, testNow, [], [],
        [(str "version", str "1.0.0")]⟩
      = extractAmzMetadata [(str "X-Amz-Meta-version", str "1.0.0")] := by
  refine ⟨metadata_roundtrip.1 _, metadata_roundtrip.2.1 _ _ _ _ (by simp),
    metadata_roundtrip.2.2.1 _ (str "X-Amz-Meta-version") _ (by decide) (by simp), ?_⟩
  exact metadata_roundtrip.2.2.2 (str "k") [(str "X-Amz-Meta-version", str "1.0.0")]
    testNow _ rfl

/-- C5 counterexample: a HEAD response whose `Last-Modified` header holds the
unparseable value `"garbage"` makes `get_object_metadata` raise `ValueError`
(from `strptime`) instead of falling back to the current time as the claim
states. -/
theorem last_modified_unparseable_counterexample :
    get_object_metadata (str "k") [(str "Last-Modified", str "garbage")] testNow
      = Except.error DecodeError.valueError := by
  rfl

/-- C5 amended: the fallback to `datetime.now()` happens only when the
`Last-Modified` header is absent or empty; a present, parseable value is
decoded per the RFC-1123 `strptime` format; a present but unparseable value
raises `ValueError` rather than falling back; and a successfully decoded
`Object` carries exactly the value this rule produces. -/
theorem last_modified_fallback_amended :
    (∀ headers now, headersGet headers (str "Last-Modified") [] = [] →
      lastModifiedOf headers now = Except.ok now) ∧
    (∀ headers now d,
      strptimeRFC1123 (headersGet headers (str "Last-Modified") []) = some d →
      lastModifiedOf headers now = Except.ok d) ∧
    (∀ headers now, headersGet headers (str "Last-Modified") [] ≠ [] →
      strptimeRFC1123 (headersGet headers (str "Last-Modified") []) = none →
      lastModifiedOf headers now = Except.error DecodeError.valueError) ∧
    (∀ key headers now obj, get_object_metadata key headers now = Except.ok obj →
      lastModifiedOf headers now = Except.ok obj.last_modified) := by
  refine ⟨fun headers now h => ?_, fun headers now d h => ?_, fun headers now h1 h2 => ?_,
    fun key headers now obj h => (get_object_metadata_ok_fields key headers now obj h).2.2.2.2⟩
  · simp [lastModifiedOf, h]
  · have hne : headersGet headers (str "Last-Modified") [] ≠ [] := by
      intro hnil
      rw [hnil] at h
      exact Option.noConfusion (show (none : Option Datetime) = some d from h)
    simp [lastModifiedOf, hne, h]
  · simp [lastModifiedOf, h1, h2]

/-- Witness for the amended C5: no header falls back to the reference instant,
and the test suite's header value `"Mon, 15 Jan 2024 10:30:00 GMT"` decodes to
that instant. -/
theorem last_modified_fallback_amended_witness :
    lastModifiedOf [] testNow = Except.ok testNow ∧
    lastModifiedOf [(str "Last-Modified", str "Mon, 15 Jan 2024 10:30:00 GMT")] testNow
      = Except.ok ⟨2024, 1, 15, 10, 30, 0⟩ := by
  constructor
  · exact last_modified_fallback_amended.1 [] testNow rfl
  · exact last_modified_fallback_amended.2.1 _ testNow _ rfl

/-- C6: in the supply-chain decoders (`Signature` for sign/listSignatures/
verify, `SBOM` for attachSBOM/getSBOM, `Attestation` for
addAttestation/listAttestations), a response object without a `timestamp`
field always raises — there is no fallback to the current time — and a decode
error is a distinct failure kind from both transport errors and status-mapped
errors. -/
theorem supplychain_missing_timestamp :
    (∀ fields, lookupField fields (str "timestamp") = none →
      (∃ e, decodeSignature (JValue.jobj fields) = Except.error e) ∧
      (∃ e, decodeSBOM (JValue.jobj fields) = Except.error e) ∧
      (∃ e, decodeAttestation (JValue.jobj fields) = Except.error e)) ∧
    (∀ d a, ClientError.decode d ≠ ClientError.status a) ∧
    (∀ d t, ClientError.decode d ≠ ClientError.transport t) := by
  refine ⟨fun fields hts => ⟨?_, ?_, ?_⟩, fun d a => by simp, fun d t => by simp⟩
  · unfold decodeSignature
    simp only [bind, Except.bind]
    have hT : jGetStr fields (str "timestamp")
        = Except.error (DecodeError.keyError (str "timestamp")) := by
      simp [jGetStr, hts]
    cases jGetStr fields (str "id") with
    | error e => exact ⟨e, rfl⟩
    | ok v1 =>
      cases jGetStr fields (str "artifactDigest") with
      | error e => exact ⟨e, rfl⟩
      | ok v2 =>
        cases jGetStr fields (str "signature") with
        | error e => exact ⟨e, rfl⟩
        | ok v3 =>
          cases jGetStr fields (str "algorithm") with
          | error e => exact ⟨e, rfl⟩
          | ok v4 =>
            cases jGetStr fields (str "signedBy") with
            | error e => exact ⟨e, rfl⟩
            | ok v5 => exact ⟨DecodeError.keyError (str "timestamp"), by rw [hT]⟩
  · unfold decodeSBOM
    simp only [bind, Except.bind]
    have hT : jGetStr fields (str "timestamp")
        = Except.error (DecodeError.keyError (str "timestamp")) := by
      simp [jGetStr, hts]
    cases jGetStr fields (str "id") with
    | error e => exact ⟨e, rfl⟩
    | ok v1 =>
      cases jGetStr fields (str "artifactDigest") with
      | error e => exact ⟨e, rfl⟩
      | ok v2 =>
        cases jGetStr fields (str "format") with
        | error e => exact ⟨e, rfl⟩
        | ok v3 =>
          cases jGetStr fields (str "content") with
          | error e => exact ⟨e, rfl⟩
          | ok v4 => exact ⟨DecodeError.keyError (str "timestamp"), by rw [hT]⟩
  · unfold decodeAttestation
    simp only [bind, Except.bind]
    have hT : jGetStr fields (str "timestamp")
        = Except.error (DecodeError.keyError (str "timestamp")) := by
      simp [jGetStr, hts]
    cases jGetStr fields (str "id") with
    | error e => exact ⟨e, rfl⟩
    | ok v1 =>
      cases jGetStr fields (str "artifactDigest") with
      | error e => exact ⟨e, rfl⟩
      | ok v2 =>
        cases jGetStr fields (str "type") with
        | error e => exact ⟨e, rfl⟩
        | ok v3 =>
          cases jGetObj fields (str "data") with
          | error e => exact ⟨e, rfl⟩
          | ok v4 => exact ⟨DecodeError.keyError (str "timestamp"), by rw [hT]⟩

/-- Witness for C6 at concrete sign, SBOM and attestation responses, each
carrying every field except `timestamp`. -/
theorem supplychain_missing_timestamp_witness :
    (∃ e, decodeSignature (JValue.jobj
      [(str "id", JValue.jstr (str "sig-1")),
       (str "artifactDigest", JValue.jstr (str "sha256:ab")),
       (str "signature", JValue.jstr (str "s")),
       (str "algorithm", JValue.jstr (str "rsa")),
       (str "signedBy", JValue.jstr (str "me"))]) = Except.error e) ∧
    (∃ e, decodeSBOM (JValue.jobj
      [(str "id", JValue.jstr (str "sbom-1")),
       (str "artifactDigest", JValue.jstr (str "sha256:ab")),
       (str "format", JValue.jstr (str "spdx")),
       (str "content", JValue.jstr (str "c"))]) = Except.error e) ∧
    (∃ e, decodeAttestation (JValue.jobj
      [(str "id", JValue.jstr (str "att-1")),
       (str "artifactDigest", JValue.jstr (str "sha256:ab")),
       (str "type", JValue.jstr (str "build")),
       (str "data", JValue.jobj [(str "builder", JValue.jstr (str "ci"))])])
      = Except.error e) := by
  refine ⟨(supplychain_missing_timestamp.1
    [(str "id", JValue.jstr (str "sig-1")),
     (str "artifactDigest", JValue.jstr (str "sha256:ab")),
     (str "signature", JValue.jstr (str "s")),
     (str "algorithm", JValue.jstr (str "rsa")),
     (str "signedBy", JValue.jstr (str "me"))] rfl).1,
    (supplychain_missing_timestamp.1
    [(str "id", JValue.jstr (str "sbom-1")),
     (str "artifactDigest", JValue.jstr (str "sha256:ab")),
     (str "format", JValue.jstr (str "spdx")),
     (str "content", JValue.jstr (str "c"))] rfl).2.1, ?_⟩
  exact (supplychain_missing_timestamp.1
    [(str "id", JValue.jstr (str "att-1")),
     (str "artifactDigest", JValue.jstr (str "sha256:ab")),
     (str "type", JValue.jstr (str "build")),
     (str "data", JValue.jobj [(str "builder", JValue.jstr (str "ci"))])] rfl).2.2

/-- C7: the completion body's `parts` array lists, in exactly the caller's
order, one object per `CompletedPart` whose `partNumber` and `etag` come from
that part; the construction is total (no sorting, no contiguity check) for
every list. -/
theorem complete_multipart_order (parts : List CompletedPart) :
    (partsEntries (completeMultipartBody parts)).map (fun e =>
      match e with
      | JValue.jobj f => (lookupField f (str "partNumber"), lookupField f (str "etag"))
      | _ => (none, none))
    = parts.map (fun p =>
        (some (JValue.jnum p.part_number), some (JValue.jstr p.etag))) := by
  rw [show partsEntries (completeMultipartBody parts)
      = parts.map (fun p => JValue.jobj
          [(str "partNumber", JValue.jnum p.part_number),
           (str "etag", JValue.jstr p.etag)]) from rfl]
  rw [List.map_map]
  exact List.map_congr_left (fun p _ => rfl)

/-- C8: `list_objects` puts `prefix` in the query dict exactly when the
prefix is non-empty and `max-keys` exactly when `max_keys` is non-zero, each
with the given value; and a successfully decoded result's `prefix` field is
the response body's `prefix` field. -/
theorem list_objects_params_and_result :
    (∀ p mk, ((str "prefix", ParamValue.s p) ∈ listObjectsParams p mk ↔ p ≠ []) ∧
      (∀ v, (str "prefix", v) ∈ listObjectsParams p mk → v = ParamValue.s p) ∧
      ((str "max-keys", ParamValue.i mk) ∈ listObjectsParams p mk ↔ mk ≠ 0) ∧
      (∀ v, (str "max-keys", v) ∈ listObjectsParams p mk → v = ParamValue.i mk)) ∧
    (∀ fields now res p, decodeListObjects (JValue.jobj fields) now = Except.ok res →
      lookupField fields (str "prefix") = some (JValue.jstr p) →
      ListObjectsResult.prefix_ res = p) := by
  constructor
  · intro p mk
    refine ⟨?_, ?_, ?_, ?_⟩ <;>
      (by_cases hp : p = [] <;> by_cases hm : mk = 0 <;>
        simp [listObjectsParams, hp, hm, str])
  · intro fields now res p h hp
    unfold decodeListObjects at h
    simp only [bind, Except.bind] at h
    rw [hp] at h
    repeat' split at h
    all_goals first
      | exact Except.noConfusion h
      | (injection h with h'
         subst h'
         simp_all)

/-- Witness for C8 at `prefix="app/"`, `max_keys=1000`, with a server body
echoing the prefix back. -/
theorem list_objects_params_and_result_witness :
    (str "prefix", ParamValue.s (str "app/")) ∈ listObjectsParams (str "app/") 1000 ∧
    ListObjectsResult.prefix_ ⟨[], str "app/", 1000, false⟩ = str "app/" := by
  constructor
  · exact ((list_objects_params_and_result.1 (str "app/") 1000).1).mpr (by decide)
  · exact list_objects_params_and_result.2
      [(str "prefix", JValue.jstr (str "app/"))] testNow _ (str "app/") rfl rfl

/-- C9: an empty (falsy) `base_url` makes `Config.__init__` raise
`ValueError`; a non-empty one is stored with every trailing `/` removed (the
stored value ends in no `/` and the input is the stored value plus a run of
slashes), and all other fields are stored as supplied. -/
theorem config_base_url :
    (∀ token timeout isv ua, Config.init [] token timeout isv ua
        = Except.error ⟨str "base_url is required"⟩) ∧
    (∀ s token timeout isv ua, s ≠ [] →
      Config.init s token timeout isv ua
        = Except.ok ⟨pyRstripSlash s, token, timeout, isv, ua⟩) ∧
    (∀ s, (∃ k, s = pyRstripSlash s ++ List.replicate k '/') ∧
      (pyRstripSlash s).getLast? ≠ some '/') := by
  refine ⟨fun token timeout isv ua => rfl, fun s token timeout isv ua h => ?_, fun s => ?_⟩
  · simp [Config.init, h]
  · exact ⟨⟨_, (pyRstripSlash_spec s).1⟩, (pyRstripSlash_spec s).2⟩

/-- Witness for C9: the spec's example URL with a trailing slash. -/
theorem config_base_url_witness :
    Config.init (str "https://x.com/") none 60 false (str "astore-python/1.0.0")
      = Except.ok ⟨str "https://x.com", none, 60, false, str "astore-python/1.0.0"⟩ := by
  rw [config_base_url.2.1 (str "https://x.com/") none 60 false
    (str "astore-python/1.0.0") (by decide)]
  rfl

/-- C10: with no `ETag` response header, `upload_part` returns the empty
string and a decoded `Object`'s `etag` is the empty string; when the header is
present its value is used with all surrounding `"` characters stripped (the
result neither starts nor ends with `"`, and the raw value is the result
wrapped in quote runs); and a successfully decoded `Object`'s `etag` is
exactly `upload_part`'s value for the same headers. -/
theorem etag_defaults :
    (∀ headers, headersGetOpt headers (str "ETag") = none →
      upload_part_result headers = []) ∧
    (∀ headers v, headersGetOpt headers (str "ETag") = some v →
      upload_part_result headers = pyStripQuotes v) ∧
    (∀ v, (∃ a b, v = List.replicate a '"' ++ pyStripQuotes v ++ List.replicate b '"') ∧
      (pyStripQuotes v).head? ≠ some '"' ∧ (pyStripQuotes v).getLast? ≠ some '"') ∧
    (∀ key headers now obj, get_object_metadata key headers now = Except.ok obj →
      Object.etag obj = upload_part_result headers) := by
  refine ⟨fun headers h => ?_, fun headers v h => ?_,
    fun v => ⟨pyStripQuotes_eq_append v, pyStripQuotes_head v, pyStripQuotes_getLast v⟩,
    fun key headers now obj h =>
      (get_object_metadata_ok_fields key headers now obj h).2.2.1⟩
  · simp [upload_part_result, headersGet, h, pyStripQuotes]
  · simp [upload_part_result, headersGet, h]

/-- Witness for C10 at a headerless 2xx response and at the test suite's
quoted ETag value. -/
theorem etag_defaults_witness :
    upload_part_result [] = [] ∧
    upload_part_result [(str "ETag", str "\"part-etag-1\"")]
      = pyStripQuotes (str "\"part-etag-1\"") ∧
    pyStripQuotes (str "\"part-etag-1\"") = str "part-etag-1" := by
  refine ⟨etag_defaults.1 [] rfl, etag_defaults.2.1 _ (str "\"part-etag-1\"") rfl, ?_⟩
  rfl

end AStore
